import Mathlib

/-!
Shallow embedding of the bell compiler front-end (src/lang) and proofs about
the claims of its specification.

Conventions used throughout:
* `Name` is `String` (the source interns strings; equality is all we need).
* Spans are dropped: no lexing / parsing / checking decision in the embedded
  fragments depends on a span's value, only on token / node identity.
* Rust panics (`unwrap`, `todo!`, out-of-bounds indexing) are modelled by the
  `Res.panic` result; chumsky combinator failure is `Res.fail`.
* The lexer and parser of the source are built from chumsky 0.x combinators,
  whose semantics are: ordered choice with rewind on failure, greedy
  `repeated` that never backtracks into earlier repetitions once a subsequent
  parser fails, sequencing that fails the whole alternative when a later part
  fails.  These semantics are reproduced by the combinators below.  Recursive
  combinators (`recursive`, nested blocks) are modelled with a fuel parameter;
  fuel exhaustion (which corresponds to divergence, impossible for the fuel
  amounts used by the runners) is `Res.panic`.
-/

namespace Bell

abbrev Name := String

/-- Tokens, from src/lang/src/core/token.rs. -/
inductive Token where
  | Variable | Loop | Break | Continue | Return | Function | Structure
  | If | Else | Use
  | Add | Minus | Multiply | Divide | Modulo
  | Lesser | Greater | LesserOrEqual | GreaterOrEqual | Equal | NotEqual
  | Or | And | Assign | Reference | Specify | Of | Arrow | ModuleAcess
  | Terminate | Separate | Quote | CurlyLeft | CurlyRight | Left | Right
  | NameTok (s : Name)
  | StringTok (s : Name)
  | Int (n : Int)
  | Boolean (b : Bool)
  | EndOfFile
  | Error
  deriving Repr, DecidableEq

/-- Meta tokens, from src/lang/src/core/token.rs (spans dropped; a format
string element is the token list of one piece). -/
inductive MetaToken where
  | token (t : Token)
  | formatString (pieces : List (List MetaToken))
  | block (tokens : List MetaToken)
  deriving Repr

/-- Result of running embedded Rust code: normal result, recoverable parser
failure, or a Rust panic / divergence. -/
inductive Res (α : Type) where
  | ok (val : α)
  | fail
  | panic
  deriving Repr, DecidableEq

/-- A chumsky parser over input elements of type `ι`: input to result and
remaining input. -/
abbrev GParser (ι α : Type) := List ι → Res (α × List ι)

/-- A character-level chumsky parser, as used by the lexer. -/
abbrev CParser (α : Type) := GParser Char α

/-- chumsky `just` on a literal string: match exactly this char sequence. -/
def cjust (lit : List Char) : CParser Unit := fun s =>
  if lit.isPrefixOf s then .ok ((), s.drop lit.length) else .fail

/-- chumsky `any`: consume one arbitrary character. -/
def canyChar : CParser Char := fun s =>
  match s with
  | [] => .fail
  | c :: rest => .ok (c, rest)

/-- chumsky `end`: succeed only at the end of input. -/
def cend : GParser ι Unit := fun s =>
  match s with
  | [] => .ok ((), [])
  | _ :: _ => .fail

/-- chumsky `filter`: consume one element satisfying the predicate. -/
def cfilter (p : ι → Bool) : GParser ι ι := fun s =>
  match s with
  | [] => .fail
  | c :: rest => if p c then .ok (c, rest) else .fail

/-- chumsky `a.or(b)`: ordered choice, rewinding on failure of `a`.  A panic
in `a` propagates (a Rust panic unwinds through the whole parse). -/
def corElse (p q : GParser ι α) : GParser ι α := fun s =>
  match p s with
  | .ok r => .ok r
  | .fail => q s
  | .panic => .panic

/-- chumsky `map`. -/
def cmap (p : GParser ι α) (f : α → β) : GParser ι β := fun s =>
  match p s with
  | .ok (a, rest) => .ok (f a, rest)
  | .fail => .fail
  | .panic => .panic

/-- chumsky `then`: sequence two parsers, keeping both results. -/
def cseq (p : GParser ι α) (q : GParser ι β) : GParser ι (α × β) := fun s =>
  match p s with
  | .ok (a, rest) =>
    match q rest with
    | .ok (b, rest2) => .ok ((a, b), rest2)
    | .fail => .fail
    | .panic => .panic
  | .fail => .fail
  | .panic => .panic

/-- chumsky `a.ignore_then(b)`. -/
def cignoreThen (p : GParser ι α) (q : GParser ι β) : GParser ι β :=
  cmap (cseq p q) Prod.snd

/-- chumsky `a.then_ignore(b)`. -/
def cthenIgnore (p : GParser ι α) (q : GParser ι β) : GParser ι α :=
  cmap (cseq p q) Prod.fst

/-- chumsky `a.or_not()`. -/
def corNot (p : GParser ι α) : GParser ι (Option α) := fun s =>
  match p s with
  | .ok (a, rest) => .ok (some a, rest)
  | .fail => .ok (none, s)
  | .panic => .panic

/-- chumsky `repeated` (greedy, zero or more, no backtracking into earlier
repetitions).  `fuel` bounds the number of iterations; running out of fuel
corresponds to an infinite loop in chumsky (a non-consuming inner success)
and is modelled as a panic.  All uses supply `input length + 1` fuel, which
never runs out because every inner parser consumes on success. -/
def crepeatedF (p : GParser ι α) : Nat → GParser ι (List α)
  | 0 => fun _ => .panic
  | fuel + 1 => fun s =>
    match p s with
    | .ok (a, rest) =>
      match crepeatedF p fuel rest with
      | .ok (as, rest2) => .ok (a :: as, rest2)
      | .fail => .fail
      | .panic => .panic
    | .fail => .ok ([], s)
    | .panic => .panic

/-- chumsky `repeated().at_least(1)`. -/
def crepeatedF1 (p : GParser ι α) (fuel : Nat) : GParser ι (List α) := fun s =>
  match p s with
  | .ok (a, rest) =>
    match crepeatedF p fuel rest with
    | .ok (as, rest2) => .ok (a :: as, rest2)
    | .fail => .fail
    | .panic => .panic
  | .fail => .fail
  | .panic => .panic

/-- chumsky `a.separated_by(b).at_least(1)`: one `a`, then `(b a)*`. -/
def cseparatedBy1 (p : GParser ι α) (sep : GParser ι β) (fuel : Nat) :
    GParser ι (List α) := fun s =>
  match p s with
  | .ok (a, rest) =>
    match crepeatedF (cignoreThen sep p) fuel rest with
    | .ok (as, rest2) => .ok (a :: as, rest2)
    | .fail => .fail
    | .panic => .panic
  | .fail => .fail
  | .panic => .panic

/-- chumsky `a.separated_by(b).allow_trailing()`: zero or more `a` separated
by `b`, with an optional trailing `b`. -/
def cseparatedByTrailing (p : GParser ι α) (sep : GParser ι β) (fuel : Nat) :
    GParser ι (List α) := fun s =>
  match p s with
  | .ok (a, rest) =>
    match crepeatedF (cignoreThen sep p) fuel rest with
    | .ok (as, rest2) =>
      match corNot sep rest2 with
      | .ok (_, rest3) => .ok (a :: as, rest3)
      | .fail => .fail
      | .panic => .panic
    | .fail => .fail
    | .panic => .panic
  | .fail => .ok ([], s)
  | .panic => .panic

/-- Whitespace as recognised by chumsky's `padded` (ASCII subset; the
sources in all claims are ASCII). -/
def isWhitespaceChar (c : Char) : Bool :=
  c = ' ' || c = '\t' || c = '\n' || c = '\r' || c = '\x0b' || c = '\x0c'

/-- Consume any amount of whitespace (always succeeds). -/
def cwhitespace : CParser Unit := fun s =>
  .ok ((), s.dropWhile isWhitespaceChar)

/-- chumsky `padded`: whitespace on both sides of the inner parser. -/
def cpadded (p : CParser α) : CParser α := fun s =>
  match p (s.dropWhile isWhitespaceChar) with
  | .ok (a, rest) => .ok (a, rest.dropWhile isWhitespaceChar)
  | .fail => .fail
  | .panic => .panic

/-- chumsky `padded_by`: the surrounding parser runs once before and once
after the inner one, its output ignored. -/
def cpaddedBy (pad : CParser β) (p : CParser α) : CParser α := fun s =>
  match pad s with
  | .ok (_, rest) =>
    match p rest with
    | .ok (a, rest2) =>
      match pad rest2 with
      | .ok (_, rest3) => .ok (a, rest3)
      | .fail => .fail
      | .panic => .panic
    | .fail => .fail
    | .panic => .panic
  | .fail => .fail
  | .panic => .panic

/-! The lexer, from src/lang/src/front_end/lex.rs. -/

def isIdentStart (c : Char) : Bool := c.isAlpha || c = '_'

def isIdentContinue (c : Char) : Bool := c.isAlphanum || c = '_'

/-- chumsky `text::ident`: `[A-Za-z_][A-Za-z0-9_]*` (ASCII model). -/
def cident : CParser String := fun s =>
  match s with
  | [] => .fail
  | c :: rest =>
    if isIdentStart c then
      .ok (String.mk (c :: rest.takeWhile isIdentContinue),
           rest.dropWhile isIdentContinue)
    else .fail

/-- Keyword lookup of lex.rs lines 16-30: performed after reading the whole
identifier. -/
def keywordToken (ident : String) : Token :=
  if ident = "var" then .Variable
  else if ident = "loop" then .Loop
  else if ident = "break" then .Break
  else if ident = "continue" then .Continue
  else if ident = "return" then .Return
  else if ident = "func" then .Function
  else if ident = "struct" then .Structure
  else if ident = "if" then .If
  else if ident = "else" then .Else
  else if ident = "use" then .Use
  else if ident = "true" then .Boolean true
  else if ident = "false" then .Boolean false
  else .NameTok ident

/-- The `identifier` sub-parser of the lexer. -/
def identifierLex : CParser Token := cmap cident keywordToken

/-- chumsky `text::int(10)`: a nonzero digit followed by digits, or the
single digit `0` (no leading zeros). -/
def cint : CParser String := fun s =>
  match s with
  | [] => .fail
  | c :: rest =>
    if c.isDigit && c ≠ '0' then
      .ok (String.mk (c :: rest.takeWhile Char.isDigit),
           rest.dropWhile Char.isDigit)
    else if c = '0' then .ok ("0", rest)
    else .fail

def digitsToNat (s : String) : Nat :=
  s.data.foldl (fun acc c => acc * 10 + (c.toNat - '0'.toNat)) 0

/-- The `integer` sub-parser: lex.rs line 35 parses the digits with
`parse::<i32>().unwrap()`.  `parse` fails when the value exceeds
`i32::MAX = 2147483647`, so the `unwrap` panics there. -/
def integerLex : CParser Token := fun s =>
  match cint s with
  | .ok (digits, rest) =>
    if digitsToNat digits ≤ 2147483647 then
      .ok (.Int (digitsToNat digits), rest)
    else .panic
  | .fail => .fail
  | .panic => .panic

/-- The operator table of lex.rs lines 38-62, in source order.  chumsky's
`choice` tries the alternatives in this exact order and commits to the first
success. -/
def symbolTable : List (List Char × Token) :=
  [ (['+'], .Add)
  , (['-'], .Minus)
  , (['*'], .Multiply)
  , (['/'], .Divide)
  , (['%'], .Modulo)
  , (['<', '='], .LesserOrEqual)
  , (['>', '='], .GreaterOrEqual)
  , (['=', '='], .Equal)
  , (['!', '='], .NotEqual)
  , (['&'], .Reference)
  , (['|', '|'], .Or)
  , (['&', '&'], .And)
  , (['='], .Assign)
  , ([':', ':'], .ModuleAcess)
  , ([':'], .Specify)
  , (['.'], .Of)
  , (['-', '>'], .Arrow)
  , ([';'], .Terminate)
  , (['<'], .Lesser)
  , (['>'], .Greater)
  , (['('], .Left)
  , ([')'], .Right)
  , ([','], .Separate) ]

/-- The `symbol` sub-parser: ordered choice over the operator table. -/
def symbolLex : CParser Token := fun s =>
  match symbolTable.find? (fun e => e.1.isPrefixOf s) with
  | some (lit, tok) => .ok (tok, s.drop lit.length)
  | none => .fail

/-- `token = identifier.or(integer).or(symbol)` (lex.rs line 64). -/
def tokenLex : CParser Token :=
  corElse identifierLex (corElse integerLex symbolLex)

/-- chumsky `recovery::nested_delimiters('{', '}', [], ..)`: on failure of
the primary parser, consume one balanced `{` ... `}` region (with nesting)
and produce the fallback.  `depth` is the current nesting inside the region.
Structural recursion on the input list. -/
def skipBalanced (depth : Nat) : List Char → Res (List Char)
  | [] => .fail
  | c :: rest =>
    if c = '{' then skipBalanced (depth + 1) rest
    else if c = '}' then
      match depth with
      | 0 => .ok rest
      | d + 1 => skipBalanced d rest
    else skipBalanced depth rest

def nestedDelimRecovery : CParser Unit := fun s =>
  match s with
  | '{' :: rest =>
    match skipBalanced 0 rest with
    | .ok rest2 => .ok ((), rest2)
    | .fail => .fail
    | .panic => .panic
  | _ => .fail

/-- `block_comment = just("/*").then(any().repeated()).then(just("*/"))`
(lex.rs line 102), with chumsky's greedy, non-backtracking `repeated`. -/
def blockCommentLex (fuel : Nat) : CParser Unit := fun s =>
  match cseq (cjust ['/', '*'])
      (cseq (crepeatedF canyChar fuel) (cjust ['*', '/'])) s with
  | .ok (_, rest) => .ok ((), rest)
  | .fail => .fail
  | .panic => .panic

/-- `comment = just("//").then(any().repeated().then(newline.or(end())))`
(lex.rs lines 104-106). -/
def lineCommentLex (fuel : Nat) : CParser Unit := fun s =>
  match cseq (cjust ['/', '/'])
      (cseq (crepeatedF canyChar fuel)
        (corElse (cjust ['\n']) cend)) s with
  | .ok (_, rest) => .ok ((), rest)
  | .fail => .fail
  | .panic => .panic

/-- `comments = block_comment.or(comment).padded().repeated()`
(lex.rs line 108). -/
def commentsLex (fuel : Nat) : CParser (List Unit) := fun s =>
  crepeatedF (cpadded (corElse (blockCommentLex (s.length + 1))
    (lineCommentLex (s.length + 1)))) fuel s

/-- `block` (lex.rs lines 66-70): `{` meta_tokens `}` with nested-delimiter
recovery producing an empty block.  `meta_tokens` is the parser bound by the
chumsky `recursive` combinator, passed in as a value. -/
def blockLexWith (meta_tokens : CParser (List MetaToken)) :
    CParser MetaToken := fun s =>
  match cseq (cjust ['{']) (cseq meta_tokens (cjust ['}'])) s with
  | .ok ((_, (ts, _)), rest) => .ok (.block ts, rest)
  | .fail =>
    match nestedDelimRecovery s with
    | .ok (_, rest) => .ok (.block [], rest)
    | .fail => .fail
    | .panic => .panic
  | .panic => .panic

/-- One piece of a format string (lex.rs lines 72-89): either a braced
expression piece (with recovery) or a maximal run of characters other than
`"` and `{`, yielded as a single String token. -/
def stringPieceLexWith (meta_tokens : CParser (List MetaToken)) :
    CParser (List MetaToken) := fun s =>
  match cseq (cjust ['{']) (cseq meta_tokens (cjust ['}'])) s with
  | .ok ((_, (ts, _)), rest) => .ok (ts, rest)
  | .fail =>
    match nestedDelimRecovery s with
    | .ok (_, rest) => .ok ([], rest)
    | .fail =>
      match s with
      | [] => .fail
      | c :: _ =>
        if c = '{' || c = '"' then .fail
        else
          .ok ([.token (.StringTok (String.mk
                  (s.takeWhile (fun d => !(d = '{' || d = '"')))))],
               s.dropWhile (fun d => !(d = '{' || d = '"')))
    | .panic => .panic
  | .panic => .panic

/-- `string` (lex.rs lines 72-94): pieces between two `"`. -/
def stringLexWith (meta_tokens : CParser (List MetaToken)) :
    CParser MetaToken := fun s =>
  match cseq (cjust ['"'])
      (cseq (crepeatedF (stringPieceLexWith meta_tokens) (s.length + 1))
        (cjust ['"'])) s with
  | .ok ((_, (pieces, _)), rest) => .ok (.formatString pieces, rest)
  | .fail => .fail
  | .panic => .panic

/-- `meta_token = token.or(block).or(string)` followed by `padded()`
(lex.rs lines 96-100). -/
def metaTokenLexWith (meta_tokens : CParser (List MetaToken)) :
    CParser MetaToken :=
  cpadded (corElse (cmap tokenLex MetaToken.token)
    (corElse (blockLexWith meta_tokens) (stringLexWith meta_tokens)))

/-- The recursive `meta_tokens` parser (lex.rs lines 14 and 110):
`meta_token.repeated().padded_by(comments)`, where nested blocks and string
pieces re-enter the parser one fuel level down. -/
def metaTokensLex : Nat → CParser (List MetaToken)
  | 0 => fun _ => .panic
  | fuel + 1 => fun s =>
    cpaddedBy (commentsLex (s.length + 1))
      (crepeatedF (metaTokenLexWith (metaTokensLex fuel)) (s.length + 1)) s

/-- The whole lexer (lex.rs lines 13-119): the recursive meta-token parser
followed by `end()` mapped to an EndOfFile token, which is appended. -/
def lexerRun (s : List Char) : Res (List MetaToken) :=
  match metaTokensLex (s.length + 1) s with
  | .ok (ts, rest) =>
    match cend rest with
    | .ok _ => .ok (ts ++ [.token .EndOfFile])
    | .fail => .fail
    | .panic => .panic
  | .fail => .fail
  | .panic => .panic

/-- Diagnostic kinds of src/lang/src/core/error.rs that the embedded
fragments can emit. -/
inductive ErrKind where
  | Unexpected
  | UnterminatedBlockComment
  | UnterminatedString
  | ConflictingModuleNames (parent : List Name) (name : Name)
  | ConflictingIds
  | MissingId (id : List Name)
  | InvalidAssign
  | TypeMismatch
  | MissingField
  | InvalidFlow
  deriving Repr, DecidableEq

/-- lex.rs lines 143-152: every chumsky lexer error is converted to
`Error::Unexpected { .. }`; no other diagnostic kind can be produced by
`lex`. -/
def lexErrorToDiagnostic : Unit → ErrKind := fun _ => .Unexpected

/-- Result of `lex` (lex.rs lines 121-155): on parse failure the tokens
default to the empty vector (`unwrap_or_else`) and the chumsky errors are
appended as `Unexpected` diagnostics (at least one exists on failure). -/
structure LexOut where
  tokens : List MetaToken
  errors : List ErrKind
  deriving Repr

def lex (text : String) : Res LexOut :=
  match lexerRun text.data with
  | .ok ts => .ok ⟨ts, []⟩
  | .fail => .ok ⟨[], [lexErrorToDiagnostic ()]⟩
  | .panic => .panic

/-! The AST, from src/lang/src/core/ast.rs (spans dropped).  Note: in the
source `Expression::String` is declared with an `Id` payload while the
parser constructs it from an interned string; the embedding uses the
parser's payload (a plain name). -/

abbrev Id := List Name

/-- `ast::Type`. -/
inductive AstType where
  | Integer
  | Boolean
  | String
  | Structure (id : Id)
  | Reference (inner : AstType)
  deriving Repr

/-- `ast::TypeHint<T>`. -/
structure AstTypeHint (T : Type) where
  value : T
  type_hint : Option AstType
  deriving Repr

/-- `ast::Expression`. -/
inductive AExpr where
  | Int (n : Int)
  | Boolean (b : Bool)
  | String (s : Name)
  | Identifier (id : Id)
  | Function (name : AstTypeHint Name) (parameters : List (AstTypeHint Name))
      (body : AExpr)
  | Instance (object : Id) (fields : List (Name × AExpr))
  | Call (function : AExpr) (parameters : List AExpr)
  | Declaration (name : AstTypeHint Name) (value : AExpr)
  | Assignment (to_ : AExpr) (from_ : AExpr)
  | Access (from_ : AExpr) (field : Name)
  | Block (expressions : List AExpr) (tail : Option AExpr)
  | Structure (name : Name) (fields : List (AstTypeHint Name))
  | Conditional (branches : List (AExpr × AExpr)) (tail : Option AExpr)
  | Break (e : AExpr)
  | Return (e : AExpr)
  | Continue
  | Loop (body : AExpr)
  | Import (id : Id)
  | ErrorE
  deriving Repr

/-! The parser, from src/lang/src/front_end/parse.rs. -/

/-- A token-level chumsky parser. -/
abbrev TParser (α : Type) := GParser Token α

/-- chumsky `just` on one token. -/
def tjust (t : Token) : TParser Token := cfilter (fun u => u = t)

/-- `filter_map` for integer literal tokens (parse.rs lines 199-208). -/
def integerT : TParser AExpr := fun s =>
  match s with
  | .Int n :: rest => .ok (.Int n, rest)
  | _ => .fail

/-- `filter_map` for boolean literal tokens (parse.rs lines 210-219). -/
def booleanT : TParser AExpr := fun s =>
  match s with
  | .Boolean b :: rest => .ok (.Boolean b, rest)
  | _ => .fail

/-- `pure_string` (parse.rs lines 221-229). -/
def pureStringT : TParser AExpr := fun s =>
  match s with
  | .StringTok v :: rest => .ok (.String v, rest)
  | _ => .fail

/-- `name` (parse.rs lines 299-308). -/
def nameT : TParser Name := fun s =>
  match s with
  | .NameTok n :: rest => .ok (n, rest)
  | _ => .fail

/-- `id = name.separated_by(just(ModuleAcess)).at_least(1)`
(parse.rs lines 310-315). -/
def idT : TParser Id := fun s =>
  cseparatedBy1 nameT (tjust .ModuleAcess) (s.length + 1) s

/-- `data_type` (parse.rs lines 317-334): `&`? id, with the first id
component mapped to a built-in type name. -/
def dataTypeT : TParser AstType := fun s =>
  match cseq (corNot (tjust .Reference)) idT s with
  | .ok ((ref, id), rest) =>
    let kind :=
      match id.head? with
      | some "Int" => AstType.Integer
      | some "Bool" => AstType.Boolean
      | some "Str" => AstType.String
      | _ => AstType.Structure id
    .ok (if ref.isSome then .Reference kind else kind, rest)
  | .fail => .fail
  | .panic => .panic

/-- `type_hint = just(Specify).ignore_then(data_type)`
(parse.rs lines 336-338). -/
def typeHintT : TParser AstType := cignoreThen (tjust .Specify) dataTypeT

/-- `field = name.then(type_hint.or_not())` (parse.rs lines 340-345). -/
def fieldT : TParser (AstTypeHint Name) :=
  cmap (cseq nameT (corNot typeHintT)) (fun (n, h) => ⟨n, h⟩)

/-- chumsky `recovery::nested_delimiters(open, close, [(o2, c2)], ..)` at
the token level: consume one balanced `open` ... `close` region, treating
the second delimiter pair as nested structure too. -/
def skipBalancedT (openT closeT o2 c2 : Token) :
    Nat → Nat → List Token → Res (List Token)
  | _, _, [] => .fail
  | d1, d2, t :: rest =>
    if t = openT then skipBalancedT openT closeT o2 c2 (d1 + 1) d2 rest
    else if t = closeT then
      match d1 with
      | 0 => if d2 = 0 then .ok rest else .fail
      | d + 1 => skipBalancedT openT closeT o2 c2 d d2 rest
    else if t = o2 then skipBalancedT openT closeT o2 c2 d1 (d2 + 1) rest
    else if t = c2 then
      match d2 with
      | 0 => .fail
      | d + 1 => skipBalancedT openT closeT o2 c2 d1 d rest
    else skipBalancedT openT closeT o2 c2 d1 d2 rest

def nestedRecoveryT (openT closeT o2 c2 : Token) : TParser Unit := fun s =>
  match s with
  | t :: rest =>
    if t = openT then
      match skipBalancedT openT closeT o2 c2 0 0 rest with
      | .ok rest2 => .ok ((), rest2)
      | .fail => .fail
      | .panic => .panic
    else .fail
  | [] => .fail

/-- `p.delimited_by(open, close).recover_with(nested_delimiters(open, close,
[(o2, c2)], fallback))`, the recovery pattern used throughout parse.rs. -/
def delimRecover (openT closeT o2 c2 : Token) (p : TParser α) (fallback : α) :
    TParser α := fun s =>
  match cseq (tjust openT) (cseq p (tjust closeT)) s with
  | .ok ((_, (a, _)), rest) => .ok (a, rest)
  | .fail =>
    match nestedRecoveryT openT closeT o2 c2 s with
    | .ok (_, rest) => .ok (fallback, rest)
    | .fail => .fail
    | .panic => .panic
  | .panic => .panic

/-- `binary_operation(term, operator)` (parse.rs lines 168-195): a left fold
of `operator term` repetitions into `Call(Identifier(op), [left, right])`. -/
def binaryOperationT (term : TParser AExpr) (op : TParser Name) : TParser AExpr :=
  fun s =>
  match cseq term (crepeatedF (cseq op term) (s.length + 1)) s with
  | .ok ((head, rest_ops), rest) =>
    .ok (rest_ops.foldl
      (fun left (opName, right) => .Call (.Identifier [opName]) [left, right])
      head, rest)
  | .fail => .fail
  | .panic => .panic

/-- `import` (parse.rs lines 620-624). -/
def importT : TParser AExpr := cmap (cignoreThen (tjust .Use) idT) AExpr.Import

/-- `continue_flow` (parse.rs lines 646-647). -/
def continueFlowT : TParser AExpr :=
  cmap (tjust .Continue) (fun _ => AExpr.Continue)

/-- `structure` (parse.rs lines 398-417). -/
def structureT : TParser AExpr :=
  cmap
    (cseq (cignoreThen (tjust .Structure) nameT)
      (delimRecover .CurlyLeft .CurlyRight .Left .Right
        (fun s => cseparatedByTrailing fieldT (tjust .Separate)
          (s.length + 1) s)
        []))
    (fun (n, fs) => .Structure n fs)

/-- `string` (parse.rs lines 231-297): `"` (piece)* `"` where a piece is a
bare string token or a braced expression (with recovery); pieces are
left-folded into `add(acc, to_string(piece))` calls, the empty string
producing `String("")`.  `expression` is the parser bound by the outer
chumsky `recursive`, passed in as a value (likewise in the combinators
below). -/
def stringWith (expression : TParser AExpr) : TParser AExpr := fun s =>
  match cseq (tjust .Quote)
      (cseq
        (crepeatedF
          (corElse pureStringT
            (delimRecover .CurlyLeft .CurlyRight .Left .Right expression
              .ErrorE))
          (s.length + 1))
        (tjust .Quote)) s with
  | .ok ((_, (pieces, _)), rest) =>
    .ok ((pieces.foldl
      (fun acc next =>
        match acc with
        | none => some next
        | some a => some (.Call (.Identifier ["add"])
            [a, .Call (.Identifier ["to_string"]) [next]]))
      none).getD (.String ""), rest)
  | .fail => .fail
  | .panic => .panic

/-- `atom` (parse.rs lines 488-511): parenthesised expression (with
recovery), integer, boolean, pure string, format string, identifier, or
block expression; the whole choice wrapped in curly-brace recovery. -/
def atomWith (expression block_expression : TParser AExpr) :
    TParser AExpr := fun s =>
  match corElse
      (delimRecover .Left .Right .CurlyLeft .CurlyRight expression .ErrorE)
      (corElse integerT
        (corElse booleanT
          (corElse pureStringT
            (corElse (stringWith expression)
              (corElse (cmap idT AExpr.Identifier) block_expression))))) s with
  | .ok r => .ok r
  | .fail =>
    match nestedRecoveryT .CurlyLeft .CurlyRight .Left .Right s with
    | .ok (_, rest) => .ok (.ErrorE, rest)
    | .fail => .fail
    | .panic => .panic
  | .panic => .panic

/-- `access` (parse.rs lines 513-529): an atom followed by repeated
`.name`, left-folded into `Access` nodes. -/
def accessWith (expression block_expression : TParser AExpr) :
    TParser AExpr := fun s =>
  match cseq (atomWith expression block_expression)
      (crepeatedF (cignoreThen (tjust .Of) nameT) (s.length + 1)) s with
  | .ok ((head, fields), rest) =>
    .ok (fields.foldl (fun left f => .Access left f) head, rest)
  | .fail => .fail
  | .panic => .panic

/-- `call` (parse.rs lines 531-561): an access followed by repeated
parenthesised argument lists, left-folded into `Call` nodes. -/
def callWith (expression block_expression : TParser AExpr) :
    TParser AExpr := fun s =>
  match cseq (accessWith expression block_expression)
      (crepeatedF
        (delimRecover .Left .Right .CurlyLeft .CurlyRight
          (fun s2 => cseparatedByTrailing expression (tjust .Separate)
            (s2.length + 1) s2)
          [])
        (s.length + 1)) s with
  | .ok ((head, argLists), rest) =>
    .ok (argLists.foldl (fun left args => .Call left args) head, rest)
  | .fail => .fail
  | .panic => .panic

/-- `product` (parse.rs lines 563-570). -/
def productWith (expression block_expression : TParser AExpr) :
    TParser AExpr :=
  binaryOperationT (callWith expression block_expression)
    (corElse (cmap (tjust .Multiply) (fun _ => "multiply"))
      (corElse (cmap (tjust .Divide) (fun _ => "divide"))
        (cmap (tjust .Modulo) (fun _ => "modulo"))))

/-- `sum` (parse.rs lines 572-575). -/
def sumWith (expression block_expression : TParser AExpr) : TParser AExpr :=
  binaryOperationT (productWith expression block_expression)
    (corElse (cmap (tjust .Add) (fun _ => "add"))
      (cmap (tjust .Minus) (fun _ => "subtract")))

/-- `comparison` (parse.rs lines 577-588). -/
def comparisonWith (expression block_expression : TParser AExpr) :
    TParser AExpr :=
  binaryOperationT (sumWith expression block_expression)
    (corElse (cmap (tjust .Lesser) (fun _ => "lesser"))
      (corElse (cmap (tjust .Greater) (fun _ => "greater"))
        (corElse (cmap (tjust .LesserOrEqual) (fun _ => "lesser_or_equal"))
          (corElse (cmap (tjust .GreaterOrEqual) (fun _ => "greater_or_equal"))
            (corElse (cmap (tjust .Equal) (fun _ => "equal"))
              (cmap (tjust .NotEqual) (fun _ => "not_equal")))))))

/-- `logic` (parse.rs lines 590-593). -/
def logicWith (expression block_expression : TParser AExpr) : TParser AExpr :=
  binaryOperationT (comparisonWith expression block_expression)
    (corElse (cmap (tjust .Or) (fun _ => "or"))
      (cmap (tjust .And) (fun _ => "and")))

/-- `assign` (parse.rs lines 595-618): `logic (= logic)*`, folded into
right-associated assignments. -/
def assignWith (expression block_expression : TParser AExpr) :
    TParser AExpr := fun s =>
  match cseq (logicWith expression block_expression)
      (crepeatedF
        (cignoreThen (tjust .Assign) (logicWith expression block_expression))
        (s.length + 1))
      s with
  | .ok ((head, body), rest) =>
    match (body.reverse ++ [head]).foldl
        (fun acc before =>
          match acc with
          | none => some before
          | some last => some (.Assignment before last))
        (none : Option AExpr) with
    | some e => .ok (e, rest)
    | none => .panic
  | .fail => .fail
  | .panic => .panic

/-- `block` (parse.rs lines 348-363): `{` ((expression `;`) | block-expr)*
expression? `}`, with nested-delimiter recovery producing `Error`.
`block_expression` is the parser bound by the inner chumsky `recursive`. -/
def blockWith (expression block_expression : TParser AExpr) : TParser AExpr :=
  delimRecover .CurlyLeft .CurlyRight .Left .Right
    (fun s =>
      match cseq
          (crepeatedF
            (corElse (cthenIgnore expression (tjust .Terminate))
              block_expression)
            (s.length + 1))
          (corNot expression) s with
      | .ok ((stmts, tail), rest) => .ok (AExpr.Block stmts tail, rest)
      | .fail => .fail
      | .panic => .panic)
    .ErrorE

/-- `conditional` (parse.rs lines 365-391). -/
def conditionalWith (expression block : TParser AExpr) : TParser AExpr :=
  fun s =>
  match cseq (cignoreThen (tjust .If) (cseq expression block))
      (cseq
        (crepeatedF
          (cignoreThen (cseq (tjust .Else) (tjust .If))
            (cseq expression block))
          (s.length + 1))
        (corNot (cignoreThen (tjust .Else) block))) s with
  | .ok ((head, (body, tail)), rest) =>
    .ok (.Conditional (head :: body) tail, rest)
  | .fail => .fail
  | .panic => .panic

/-- `basic_loop` (parse.rs lines 393-396). -/
def basicLoopWith (block : TParser AExpr) : TParser AExpr :=
  cmap (cignoreThen (tjust .Loop) block) AExpr.Loop

/-- `instance` (parse.rs lines 419-443). -/
def instanceWith (expression : TParser AExpr) : TParser AExpr :=
  cmap
    (cseq idT
      (delimRecover .CurlyLeft .CurlyRight .Left .Right
        (fun s => cseparatedByTrailing
          (cseq (cthenIgnore nameT (tjust .Specify)) expression)
          (tjust .Separate) (s.length + 1) s)
        []))
    (fun (obj, fs) => .Instance obj fs)

/-- `function` (parse.rs lines 445-475). -/
def functionWith (block : TParser AExpr) : TParser AExpr :=
  cmap
    (cseq (cignoreThen (tjust .Function) nameT)
      (cseq
        (delimRecover .Left .Right .CurlyLeft .CurlyRight
          (fun s => cseparatedByTrailing fieldT (tjust .Separate)
            (s.length + 1) s)
          [])
        (cseq (corNot (cignoreThen (tjust .Arrow) dataTypeT)) block)))
    (fun (n, (params, (ret, body))) => .Function ⟨n, ret⟩ params body)

/-- `declaration` (parse.rs lines 626-644). -/
def declarationWith (expression : TParser AExpr) : TParser AExpr :=
  cmap (cseq (cignoreThen (tjust .Variable) (cseq nameT (corNot typeHintT)))
      (cignoreThen (tjust .Assign) expression))
    (fun ((n, h), v) => .Declaration ⟨n, h⟩ v)

/-- `break_flow` (parse.rs lines 649-651). -/
def breakFlowWith (expression : TParser AExpr) : TParser AExpr :=
  cmap (cignoreThen (tjust .Break) expression) AExpr.Break

/-- `return_flow` (parse.rs lines 653-655). -/
def returnFlowWith (expression : TParser AExpr) : TParser AExpr :=
  cmap (cignoreThen (tjust .Return) expression) AExpr.Return

/-- The recursive `block_expression` (parse.rs lines 347-486): choice of
conditional, function, loop, structure, instance, block (in that order);
the `block` sub-parser re-enters the choice one fuel level down. -/
def blockExpressionRec (expression : TParser AExpr) : Nat → TParser AExpr
  | 0 => fun _ => .panic
  | fuel + 1 =>
    let block_expression := blockExpressionRec expression fuel
    let block := blockWith expression block_expression
    corElse (conditionalWith expression block)
      (corElse (functionWith block)
        (corElse (basicLoopWith block)
          (corElse structureT
            (corElse (instanceWith expression) block))))

/-- The recursive `expression` parser of `build_parser`
(parse.rs lines 198, 657-667): ordered choice of declaration, import,
block-expression, continue, break, return, assignment chain.  Fuel models
the `recursive` combinator. -/
def expressionT : Nat → TParser AExpr
  | 0 => fun _ => .panic
  | fuel + 1 =>
    let expression := expressionT fuel
    let block_expression := blockExpressionRec expression (fuel + 1)
    corElse (declarationWith expression)
      (corElse importT
        (corElse block_expression
          (corElse continueFlowT
            (corElse (breakFlowWith expression)
              (corElse (returnFlowWith expression)
                (assignWith expression block_expression))))))

mutual

/-- Flattening of the meta-token stream for the parser
(parse.rs lines 84-160): blocks become `{` ... `}`, format strings become
`"` with each piece wrapped in `{` ... `}`, then `"`. -/
def flattenMeta : MetaToken → List Token
  | .token t => [t]
  | .block ts => .CurlyLeft :: flattenMetaList ts ++ [.CurlyRight]
  | .formatString pieces => .Quote :: flattenPieces pieces ++ [.Quote]

def flattenMetaList : List MetaToken → List Token
  | [] => []
  | m :: ms => flattenMeta m ++ flattenMetaList ms

def flattenPieces : List (List MetaToken) → List Token
  | [] => []
  | p :: ps => .CurlyLeft :: flattenMetaList p ++ [.CurlyRight] ++
      flattenPieces ps

end

/-- `build_parser` (parse.rs lines 197-671):
`expression.repeated().at_least(1)`. -/
def buildParserRun (stream : List Token) : Res (List AExpr × List Token) :=
  crepeatedF1 (expressionT (16 * (stream.length + 2))) (stream.length + 1)
    stream

/-- `parse` (parse.rs lines 673-694).  `TokenIterator::get_end_span` unwraps
the first element of the reversed vector, so an empty token vector panics;
the stream conversion removes the final (EndOfFile) token and flattens the
rest; on parser failure the AST defaults to a single `Error` expression (at
the cached EndOfFile span) and every chumsky error becomes an `Unexpected`
diagnostic (at least one exists on failure). -/
def parse (tokens : List MetaToken) : Res (List AExpr × List ErrKind) :=
  match tokens with
  | [] => .panic
  | _ :: _ =>
    match buildParserRun (tokens.dropLast.flatMap flattenMeta) with
    | .ok (ast, _) => .ok (ast, [])
    | .fail => .ok ([.ErrorE], [.Unexpected])
    | .panic => .panic

/-! The type engine, from src/lang/src/core/types.rs. -/

abbrev TypeId := Nat

/-- `LinkReason` (types.rs lines 252-265). -/
inductive LinkReason where
  | Declaration | Assign | Structure | Call | Condition | Field
  | Conditional | Loop | Other | Parameter | Return
  deriving Repr, DecidableEq

/-- `TypeInfo` (types.rs lines 11-31).  `Structure` carries its field map as
an association list (the source uses a `HashMap`; only lookup and iteration
are performed on it, and the claims below use at most one field, so
iteration order is immaterial). -/
inductive TypeInfo where
  | Unknown (reported : Bool)
  | Reference (t : TypeId)
  | Link (linked_to : TypeId) (reason : LinkReason)
  | Unit
  | Integer
  | Boolean
  | String
  | Structure (fields : List (Name × TypeId))
  | Instance (t : TypeId)
  | Function (parameters : List TypeId) (return_type : TypeId)
  deriving Repr, DecidableEq

/-- `Mismatch` (types.rs lines 67-72). -/
structure Mismatch where
  a : TypeId
  b : TypeId
  reason : LinkReason
  deriving Repr, DecidableEq

/-- `Engine` (types.rs lines 76-79); type-slot spans dropped. -/
structure Engine where
  types : List TypeInfo
  mismatches : List Mismatch
  deriving Repr, DecidableEq

/-- `Engine::insert_type` (types.rs lines 100-105): returns the id of the
appended slot. -/
def Engine.insert_type (e : Engine) (info : TypeInfo) : TypeId × Engine :=
  (e.types.length, { e with types := e.types ++ [info] })

/-- `UnifyCtx` (types.rs lines 283-289). -/
structure UnifyCtx where
  reason : LinkReason
  a : TypeId
  b : TypeId

def Engine.pushMismatch (e : Engine) (context : UnifyCtx) : Engine :=
  { e with mismatches := e.mismatches ++ [⟨context.a, context.b, context.reason⟩] }

/-- `HashMap::get` on the association-list field map. -/
def lookupField (fields : List (Name × TypeId)) (name : Name) :
    Option TypeId :=
  (fields.find? (fun f => f.1 = name)).map Prod.snd

/-- The `Structure` arm of `unify_with_context` (types.rs lines 146-160):
each left field must occur on the right and is unified with it under a fresh
`Field` context; a missing field records one mismatch (with the outer
context) and stops.  `unify1` is the recursive `self.unify` call, passed in
as a value. -/
def unifyStructureFields
    (unify1 : TypeId → TypeId → UnifyCtx → Engine → Res Engine) :
    List (Name × TypeId) → List (Name × TypeId) → UnifyCtx → Engine →
    Res Engine
  | [], _, _, e => .ok e
  | (field, data_type) :: restFields, fb, context, e =>
    match lookupField fb field with
    | some other =>
      match unify1 data_type other ⟨.Field, data_type, other⟩ e with
      | .ok e2 => unifyStructureFields unify1 restFields fb context e2
      | .fail => .fail
      | .panic => .panic
    | none => .ok (e.pushMismatch context)

/-- The `Function` arm of `unify_with_context` (types.rs lines 161-176):
pairwise unification of the parameters under fresh `Parameter` contexts,
then of the return types under a fresh `Return` context. -/
def unifyFunctionParts
    (unify1 : TypeId → TypeId → UnifyCtx → Engine → Res Engine) :
    List (TypeId × TypeId) → TypeId → TypeId → Engine → Res Engine
  | [], ra, rb, e => unify1 ra rb ⟨.Return, ra, rb⟩ e
  | (pa, pb) :: restParams, ra, rb, e =>
    match unify1 pa pb ⟨.Parameter, pa, pb⟩ e with
    | .ok e2 => unifyFunctionParts unify1 restParams ra rb e2
    | .fail => .fail
    | .panic => .panic

/-- `Engine::unify_with_context` (types.rs lines 118-183).  The match arms
appear in source order: overwrite unknowns first (before links are
followed), then follow links, then the structural cases, with a final
catch-all recording a mismatch.  `fuel` bounds the recursion depth; the
source function diverges (or overflows the stack) on cyclic links, which
fuel exhaustion models as a panic.  Indexing `self.types[..]` out of bounds
also panics. -/
def unifyWithContext : Nat → TypeId → TypeId → UnifyCtx → Engine → Res Engine
  | 0, _, _, _, _ => .panic
  | fuel + 1, a, b, context, e =>
    match e.types.get? a, e.types.get? b with
    | some ia, some ib =>
      match ia, ib with
      | .Unknown _, _ =>
        .ok { e with types := e.types.set a (.Link b context.reason) }
      | _, .Unknown _ =>
        .ok { e with types := e.types.set b (.Link a context.reason) }
      | .Link t _, _ => unifyWithContext fuel t b context e
      | _, .Link t _ => unifyWithContext fuel a t context e
      | .Integer, .Integer => .ok e
      | .Boolean, .Boolean => .ok e
      | .String, .String => .ok e
      | .Reference a2, .Reference b2 => unifyWithContext fuel a2 b2 context e
      | .Instance i, .Instance j =>
        if i = j then .ok e else .ok (e.pushMismatch context)
      | .Structure fa, .Structure fb =>
        unifyStructureFields (unifyWithContext fuel) fa fb context e
      | .Function pa ra, .Function pb rb =>
        if pa.length = pb.length then
          unifyFunctionParts (unifyWithContext fuel) (pa.zip pb) ra rb e
        else .ok (e.pushMismatch context)
      | _, _ => .ok (e.pushMismatch context)
    | _, _ => .panic

/-- `Engine::unify` (types.rs lines 114-116). -/
def Engine.unify (e : Engine) (fuel : Nat) (a b : TypeId)
    (reason : LinkReason) : Res Engine :=
  unifyWithContext fuel a b ⟨reason, a, b⟩ e

/-- `Engine::remove_ref` (types.rs lines 107-112): follow links to the
underlying info.  The source recurses without any cycle check; fuel
exhaustion models the resulting divergence as a panic. -/
def Engine.remove_ref (e : Engine) : Nat → TypeInfo → Res TypeInfo
  | 0, _ => .panic
  | fuel + 1, info =>
    match info with
    | .Link t _ =>
      match e.types.get? t with
      | some i2 => e.remove_ref fuel i2
      | none => .panic
    | _ => .ok info

/-! Scopes, from src/lang/src/core/types.rs lines 310-554. -/

abbrev ScopeId := Nat

/-- `Variable` (types.rs lines 312-316). -/
structure Variable where
  type_id : TypeId
  shadowable : Bool
  deriving Repr, DecidableEq

/-- `ScopeConnection` (types.rs lines 321-326). -/
inductive ScopeConnection where
  | Inclusive (parent : ScopeId)
  | Exclusive (parent : ScopeId)
  | None
  deriving Repr, DecidableEq

/-- `ScopeConnection::as_option` (types.rs lines 328-336). -/
def ScopeConnection.asOption : ScopeConnection → Option ScopeId
  | .Inclusive p => some p
  | .Exclusive p => some p
  | .None => none

/-- `Scope` (types.rs lines 338-343). -/
structure Scope where
  modules : List (Name × ScopeId)
  vars : List (Name × Variable)
  connection : ScopeConnection
  deriving Repr, DecidableEq

def Scope.new (connection : ScopeConnection) : Scope := ⟨[], [], connection⟩

/-- `Scope::search_variable` (types.rs lines 358-368): last binding with
this name wins. -/
def Scope.searchVariable (s : Scope) (name : Name) : Option Variable :=
  (s.vars.reverse.find? (fun v => v.1 = name)).map Prod.snd

/-- `Scope::search_module` (types.rs lines 370-380). -/
def Scope.searchModule (s : Scope) (name : Name) : Option ScopeId :=
  (s.modules.reverse.find? (fun m => m.1 = name)).map Prod.snd

abbrev RawScopes := List Scope

/-- `RawScopes::search_variable` (types.rs lines 453-463): variable lookup
crosses only `Inclusive` connections.  Fuel bounds the parent walk (the
scope graphs built by gather are acyclic, so the runner fuel
`scopes.length + 1` never runs out); out-of-bounds indexing panics. -/
def searchVariableR (raw : RawScopes) : Nat → Name → ScopeId →
    Res (Option Variable)
  | 0, _, _ => .panic
  | fuel + 1, name, starting =>
    match raw.get? starting with
    | none => .panic
    | some scope =>
      match scope.searchVariable name with
      | some v => .ok (some v)
      | none =>
        match scope.connection with
        | .Inclusive p => searchVariableR raw fuel name p
        | _ => .ok none

/-- `RawScopes::search_module` (types.rs lines 465-474): module lookup
crosses both `Inclusive` and `Exclusive` connections. -/
def searchModuleR (raw : RawScopes) : Nat → Name → ScopeId →
    Res (Option ScopeId)
  | 0, _, _ => .panic
  | fuel + 1, name, starting =>
    match raw.get? starting with
    | none => .panic
    | some scope =>
      match scope.searchModule name with
      | some m => .ok (some m)
      | none =>
        match scope.connection.asOption with
        | some p => searchModuleR raw fuel name p
        | none => .ok none

/-- `RawScopes::search_local_module` (types.rs lines 407-417): the local
scope's modules, else (through an `Inclusive` connection only) the full
module search. -/
def searchLocalModuleR (raw : RawScopes) (fuel : Nat) (name : Name)
    (starting : ScopeId) : Res (Option ScopeId) :=
  match raw.get? starting with
  | none => .panic
  | some scope =>
    match scope.searchModule name with
    | some m => .ok (some m)
    | none =>
      match scope.connection with
      | .Inclusive p => searchModuleR raw fuel name p
      | _ => .ok none

/-- `RawScopes::does_already_exist` (types.rs lines 419-422). -/
def doesAlreadyExistR (raw : RawScopes) (fuel : Nat) (name : Name)
    (starting : ScopeId) : Res Bool :=
  match searchVariableR raw fuel name starting with
  | .ok (some _) => .ok true
  | .ok none =>
    match searchLocalModuleR raw fuel name starting with
    | .ok r => .ok r.isSome
    | .fail => .fail
    | .panic => .panic
  | .fail => .fail
  | .panic => .panic

/-- `RawScopes::get_id_origin_module` (types.rs lines 424-437): walk the
non-tail id components through module lookups. -/
def getIdOriginModuleR (raw : RawScopes) (fuel : Nat) :
    List Name → ScopeId → Res (Option ScopeId)
  | [], current => .ok (some current)
  | part :: restParts, current =>
    match searchModuleR raw fuel part current with
    | .ok (some next) => getIdOriginModuleR raw fuel restParts next
    | .ok none => .ok none
    | .fail => .fail
    | .panic => .panic

/-- `RawScopes::search_id` (types.rs lines 440-451); the `unwrap` of the id
tail panics on an empty id. -/
def searchIdR (raw : RawScopes) (fuel : Nat) (id : List Name)
    (current : ScopeId) : Res (Option Variable) :=
  match id.getLast? with
  | none => .panic
  | some idTail =>
    match getIdOriginModuleR raw fuel id.dropLast current with
    | .ok (some origin) => searchVariableR raw fuel idTail origin
    | .ok none => .ok none
    | .fail => .fail
    | .panic => .panic

/-- `Scopes` (types.rs lines 484-554). -/
structure Scopes where
  raw_scopes : RawScopes
  current : ScopeId
  deriving Repr, DecidableEq

def Scopes.new : Scopes := ⟨[Scope.new .None], 0⟩

/-- `Scopes::create_scope` (types.rs lines 513-520): append a scope and
make it current. -/
def Scopes.createScope (s : Scopes) (connection : ScopeConnection) :
    ScopeId × Scopes :=
  (s.raw_scopes.length,
   ⟨s.raw_scopes ++ [Scope.new connection], s.raw_scopes.length⟩)

/-- `Scopes::exit_current_scope` (types.rs lines 522-527): the `unwrap`
panics at the root scope. -/
def Scopes.exitCurrentScope (s : Scopes) : Res Scopes :=
  match s.raw_scopes.get? s.current with
  | none => .panic
  | some scope =>
    match scope.connection.asOption with
    | some p => .ok ⟨s.raw_scopes, p⟩
    | none => .panic

/-- `Scopes::insert_module` (types.rs lines 529-531). -/
def Scopes.insertModule (s : Scopes) (name : Name) (scope_id : ScopeId) :
    Res Scopes :=
  match s.raw_scopes.get? s.current with
  | none => .panic
  | some scope =>
    .ok ⟨s.raw_scopes.set s.current
      { scope with modules := scope.modules ++ [(name, scope_id)] },
      s.current⟩

/-- `Scopes::insert_variable` (types.rs lines 533-535). -/
def Scopes.insertVariable (s : Scopes) (name : Name) (v : Variable) :
    Res Scopes :=
  match s.raw_scopes.get? s.current with
  | none => .panic
  | some scope =>
    .ok ⟨s.raw_scopes.set s.current
      { scope with vars := scope.vars ++ [(name, v)] },
      s.current⟩

/-- `Scopes::does_already_exist` (types.rs lines 498-500). -/
def Scopes.doesAlreadyExist (s : Scopes) (name : Name) : Res Bool :=
  doesAlreadyExistR s.raw_scopes (s.raw_scopes.length + 1) name s.current

/-- `Scopes::search_module` (types.rs lines 546-548). -/
def Scopes.searchModule (s : Scopes) (name : Name) : Res (Option ScopeId) :=
  searchModuleR s.raw_scopes (s.raw_scopes.length + 1) name s.current

/-- `Scopes::get_id_origin_module` (types.rs lines 509-511). -/
def Scopes.getIdOriginModule (s : Scopes) (id : List Name) :
    Res (Option ScopeId) :=
  getIdOriginModuleR s.raw_scopes (s.raw_scopes.length + 1) id.dropLast
    s.current

/-! The HIR, from src/lang/src/middle_end/hir.rs (spans and type hints
dropped; hints play no role in the gather pass, and the checker arms that
consume them reference fields that do not exist on `Checker` — see the
checker embedding below). -/

inductive HExpr where
  | Unit
  | IntH (n : Int)
  | BooleanH (b : Bool)
  | StringH (s : Name)
  | IdH (id : Name)
  | FunctionH (name : Name) (parameters : List Name) (body : HExpr)
  | InstanceH (object : Name) (fields : List (Name × HExpr))
  | CallH (function : HExpr) (parameters : List HExpr)
  | DeclarationH (name : Name) (value : HExpr)
  | AssignVariable (name : Name) (from_ : HExpr)
  | AssignField (instance_ : HExpr) (field : Name) (from_ : HExpr)
  | AccessH (from_ : HExpr) (id : Name)
  | BlockH (expressions : List HExpr) (tail : HExpr)
  | StructureH (name : Name) (fields : List Name)
  | ConditionalH (condition success failure : HExpr)
  | BreakH (e : HExpr)
  | ReturnH (e : HExpr)
  | ContinueH
  | LoopH (body : HExpr)
  | UseH (id : Name)
  | ErrorH
  deriving Repr

/-- `hir::TopLevel` (hir.rs lines 110-115). -/
inductive HTopLevel where
  | Function (name : Name) (parameters : List Name) (body : HExpr)
  | Structure (name : Name) (fields : List Name)
  | Import (id : List Name)
  deriving Repr

abbrev HProgram := List HTopLevel

/-- `hir::Module` (hir.rs lines 119-122). -/
inductive HModule where
  | Program (name : Name) (program : HProgram)
  | Submodule (name : Name) (modules : List HModule)
  deriving Repr

/-! The gather pass, from src/lang/src/middle_end/gather.rs. -/

/-- The state of a `Gatherer` (gather.rs lines 12-16). -/
structure GatherSt where
  scopes : Scopes
  engine : Engine
  errors : List ErrKind
  deriving Repr

/-- Modelled from the spec: gather.rs lines 178 and 211 call
`self.scopes.enter_scope()`, a method that `Scopes` (types.rs) does not
define, so this part of the source does not compile.  Spec section 4.5 says
function bodies are gathered in a fresh `Exclusive`-connected scope and
block scopes are `Inclusive`-connected; this models entering such a fresh
scope (via `create_scope`, the only scope-creating primitive `Scopes`
offers). -/
def GatherSt.enterScope (st : GatherSt) (connection : ScopeConnection) :
    GatherSt :=
  { st with scopes := (st.scopes.createScope connection).2 }

def GatherSt.exitScope (st : GatherSt) : Res GatherSt :=
  match st.scopes.exitCurrentScope with
  | .ok s => .ok { st with scopes := s }
  | .fail => .fail
  | .panic => .panic

/-- `Gatherer::gather_structure` (gather.rs lines 148-165): when the name
already exists in scope, the `ConflictingIds` error is built with
`second: todo!()` — evaluating `todo!()` panics, so a conflicting structure
name crashes the compiler instead of producing a diagnostic. -/
def gatherStructure (name : Name) (st : GatherSt) : Res GatherSt :=
  match st.scopes.doesAlreadyExist name with
  | .ok true => .panic
  | .ok false =>
    let (tid, engine) := st.engine.insert_type (.Unknown true)
    match st.scopes.insertVariable name ⟨tid, false⟩ with
    | .ok scopes => .ok { st with scopes := scopes, engine := engine }
    | .fail => .fail
    | .panic => .panic
  | .fail => .fail
  | .panic => .panic

/-- `Gatherer::gather_import` (gather.rs lines 102-146). -/
def gatherImport (id : List Name) (st : GatherSt) : Res GatherSt :=
  match st.scopes.getIdOriginModule id with
  | .ok (some origin) =>
    match id.getLast? with
    | none => .panic
    | some idTail =>
      match searchModuleR st.scopes.raw_scopes
          (st.scopes.raw_scopes.length + 1) idTail origin with
      | .ok (some scope_id) =>
        match st.scopes.insertModule idTail scope_id with
        | .ok scopes => .ok { st with scopes := scopes }
        | .fail => .fail
        | .panic => .panic
      | .ok none =>
        match searchVariableR st.scopes.raw_scopes
            (st.scopes.raw_scopes.length + 1) idTail origin with
        | .ok (some v) =>
          let (tid, engine) :=
            st.engine.insert_type (.Link v.type_id .Other)
          match st.scopes.insertVariable idTail ⟨tid, false⟩ with
          | .ok scopes =>
            .ok { st with scopes := scopes, engine := engine }
          | .fail => .fail
          | .panic => .panic
        | .ok none =>
          .ok { st with errors := st.errors ++ [.MissingId id] }
        | .fail => .fail
        | .panic => .panic
      | .fail => .fail
      | .panic => .panic
  | .ok none => .ok { st with errors := st.errors ++ [.MissingId id] }
  | .fail => .fail
  | .panic => .panic

mutual

/-- `Gatherer::gather_expression` (gather.rs lines 183-234).  The
`Function` arm inlines `gather_function` (gather.rs lines 167-181, also
stated standalone below as `gatherFunction`): insert the name as a fresh
non-shadowable `Unknown(true)` slot — with no conflict check of any kind —
then gather the body in a fresh scope. -/
def gatherExpression : HExpr → GatherSt → Res GatherSt
  | .FunctionH name _ body, st =>
    let (tid, engine) := st.engine.insert_type (.Unknown true)
    match st.scopes.insertVariable name ⟨tid, false⟩ with
    | .ok scopes =>
      let st := GatherSt.enterScope
        { st with scopes := scopes, engine := engine }
        (.Exclusive scopes.current)
      match gatherExpression body st with
      | .ok st2 => st2.exitScope
      | .fail => .fail
      | .panic => .panic
    | .fail => .fail
    | .panic => .panic
  | .InstanceH _ fields, st => gatherFieldExprs fields st
  | .CallH function parameters, st =>
    match gatherExpression function st with
    | .ok st2 => gatherExprList parameters st2
    | .fail => .fail
    | .panic => .panic
  | .DeclarationH _ value, st => gatherExpression value st
  | .AssignVariable _ from_, st => gatherExpression from_ st
  | .AssignField instance_ _ from_, st =>
    match gatherExpression instance_ st with
    | .ok st2 => gatherExpression from_ st2
    | .fail => .fail
    | .panic => .panic
  | .AccessH from_ _, st => gatherExpression from_ st
  | .BlockH expressions tail, st =>
    let st := st.enterScope (.Inclusive st.scopes.current)
    match gatherExprList expressions st with
    | .ok st2 =>
      match gatherExpression tail st2 with
      | .ok st3 => st3.exitScope
      | .fail => .fail
      | .panic => .panic
    | .fail => .fail
    | .panic => .panic
  | .ConditionalH condition success failure, st =>
    match gatherExpression condition st with
    | .ok st2 =>
      match gatherExpression success st2 with
      | .ok st3 => gatherExpression failure st3
      | .fail => .fail
      | .panic => .panic
    | .fail => .fail
    | .panic => .panic
  | .BreakH e, st => gatherExpression e st
  | .ReturnH e, st => gatherExpression e st
  | .LoopH e, st => gatherExpression e st
  | _, st => .ok st

def gatherExprList : List HExpr → GatherSt → Res GatherSt
  | [], st => .ok st
  | e :: es, st =>
    match gatherExpression e st with
    | .ok st2 => gatherExprList es st2
    | .fail => .fail
    | .panic => .panic

def gatherFieldExprs : List (Name × HExpr) → GatherSt → Res GatherSt
  | [], st => .ok st
  | (_, e) :: fs, st =>
    match gatherExpression e st with
    | .ok st2 => gatherFieldExprs fs st2
    | .fail => .fail
    | .panic => .panic

end

/-- `Gatherer::gather_function` (gather.rs lines 167-181): insert the name
as a fresh non-shadowable `Unknown(true)` slot — with no conflict check of
any kind — then gather the body in a fresh scope. -/
def gatherFunction (name : Name) (body : HExpr) (st : GatherSt) :
    Res GatherSt :=
  let (tid, engine) := st.engine.insert_type (.Unknown true)
  match st.scopes.insertVariable name ⟨tid, false⟩ with
  | .ok scopes =>
    let st := GatherSt.enterScope { st with scopes := scopes, engine := engine }
      (.Exclusive scopes.current)
    match gatherExpression body st with
    | .ok st2 => st2.exitScope
    | .fail => .fail
    | .panic => .panic
  | .fail => .fail
  | .panic => .panic

/-- `Gatherer::gather_top_level` (gather.rs lines 91-97). -/
def gatherTopLevel : HTopLevel → GatherSt → Res GatherSt
  | .Function name _ body, st => gatherFunction name body st
  | .Structure name _, st => gatherStructure name st
  | .Import id, st => gatherImport id st

/-- `Gatherer::gather_program` (gather.rs lines 85-89). -/
def gatherProgram : HProgram → GatherSt → Res GatherSt
  | [], st => .ok st
  | t :: ts, st =>
    match gatherTopLevel t st with
    | .ok st2 => gatherProgram ts st2
    | .fail => .fail
    | .panic => .panic

mutual

/-- `Gatherer::insert_hir_module` (gather.rs lines 59-83): create the
module scope, then — for a `Program` — ALREADY run `gather_program` on its
top-level items before registering the module binding in the parent. -/
def insertHirModule : HModule → GatherSt → Res GatherSt
  | m, st =>
    let moduleScope := st.scopes.raw_scopes.length
    let st := st.enterScope (.Exclusive st.scopes.current)
    match m with
    | .Program name program =>
      match gatherProgram program st with
      | .ok st2 =>
        match st2.exitScope with
        | .ok st3 =>
          match st3.scopes.insertModule name moduleScope with
          | .ok scopes => .ok { st3 with scopes := scopes }
          | .fail => .fail
          | .panic => .panic
        | .fail => .fail
        | .panic => .panic
      | .fail => .fail
      | .panic => .panic
    | .Submodule name modules =>
      match insertHirModuleList modules st with
      | .ok st2 =>
        match st2.exitScope with
        | .ok st3 =>
          match st3.scopes.insertModule name moduleScope with
          | .ok scopes => .ok { st3 with scopes := scopes }
          | .fail => .fail
          | .panic => .panic
        | .fail => .fail
        | .panic => .panic
      | .fail => .fail
      | .panic => .panic

def insertHirModuleList : List HModule → GatherSt → Res GatherSt
  | [], st => .ok st
  | m :: ms, st =>
    match insertHirModule m st with
    | .ok st2 => insertHirModuleList ms st2
    | .fail => .fail
    | .panic => .panic

end

mutual

/-- `Gatherer::gather_module` (gather.rs lines 28-55): for a `Program`,
look the module scope up by name, make it current, and run
`gather_program` on the very same top-level items a second time. -/
def gatherModule : HModule → GatherSt → Res GatherSt
  | .Program name program, st =>
    let previousScope := st.scopes.current
    match st.scopes.searchModule name with
    | .ok (some moduleScope) =>
      match gatherProgram program
          { st with scopes := ⟨st.scopes.raw_scopes, moduleScope⟩ } with
      | .ok st2 =>
        .ok { st2 with scopes := ⟨st2.scopes.raw_scopes, previousScope⟩ }
      | .fail => .fail
      | .panic => .panic
    | .ok none => .panic
    | .fail => .fail
    | .panic => .panic
  | .Submodule _ modules, st => gatherModuleList modules st

def gatherModuleList : List HModule → GatherSt → Res GatherSt
  | [], st => .ok st
  | m :: ms, st =>
    match gatherModule m st with
    | .ok st2 => gatherModuleList ms st2
    | .fail => .fail
    | .panic => .panic

end

/-- `gather` (gather.rs lines 242-252): insert all modules, then populate
them — running `gather_program` twice on every program. -/
def gather (module : HModule) : Res GatherSt :=
  let st : GatherSt := ⟨Scopes.new, ⟨[], []⟩, []⟩
  match insertHirModule module st with
  | .ok st2 => gatherModule module st2
  | .fail => .fail
  | .panic => .panic

/-! The checker, from src/lang/src/middle_end/check.rs. -/

/-- `Constraint` (types.rs lines 293-308). -/
structure Constraint where
  object_id : TypeId
  field_id : TypeId
  field : Name
  deriving Repr, DecidableEq

/-- `StaticScopes` (types.rs lines 556-631). -/
structure StaticScopes where
  raw_scopes : RawScopes
  current : ScopeId
  scope_inc : ScopeId
  deriving Repr, DecidableEq

/-- `StaticScopes::enter_scope` (types.rs lines 587-590). -/
def StaticScopes.enterScope (s : StaticScopes) : StaticScopes :=
  ⟨s.raw_scopes, s.scope_inc + 1, s.scope_inc + 1⟩

/-- `StaticScopes::exit_scope` (types.rs lines 592-597). -/
def StaticScopes.exitScope (s : StaticScopes) : Res StaticScopes :=
  match s.raw_scopes.get? s.current with
  | none => .panic
  | some scope =>
    match scope.connection.asOption with
    | some p => .ok ⟨s.raw_scopes, p, s.scope_inc⟩
    | none => .panic

/-- `ScopeContext` (types.rs lines 633-642). -/
inductive ScopeContext where
  | Function (return_type : TypeId)
  | FunctionLoop (function_return : TypeId) (loop_return : TypeId)
  deriving Repr, DecidableEq

/-- `ScopeContext::get_function_ret_ty` (types.rs lines 644-653). -/
def ScopeContext.getFunctionRetTy : ScopeContext → TypeId
  | .Function return_type => return_type
  | .FunctionLoop function_return _ => function_return

/-- The state of a `Checker` (check.rs lines 27-32). -/
structure CheckSt where
  constraints : List Constraint
  scopes : StaticScopes
  engine : Engine
  errors : List ErrKind
  deriving Repr, DecidableEq

def CheckSt.insertType (st : CheckSt) (info : TypeInfo) : TypeId × CheckSt :=
  let (tid, engine) := st.engine.insert_type info
  (tid, { st with engine := engine })

/-- `self.engine.unify(..)` as called by the checker; the fuel covers any
link chain in the (acyclic) engines of the runs below. -/
def CheckSt.unify (st : CheckSt) (a b : TypeId) (reason : LinkReason) :
    Res CheckSt :=
  match st.engine.unify (st.engine.types.length + 1) a b reason with
  | .ok engine => .ok { st with engine := engine }
  | .fail => .fail
  | .panic => .panic

mutual

/-- `Checker::check_expression` (check.rs lines 70-334), for the expression
forms whose arms compile.  The `Id`, `Instance`, `Declaration`,
`Assignment`, `Function` and `Structure` arms of the source reference
methods and fields that `Checker` does not define (`self.search_id`,
`self.modules`, `self.current_mod`; `Declaration` passes `&StaticScopes`
where `&Scopes` is required), so the source file does not compile for them;
they are modelled as panics and are not exercised by any claim.  The
`Block` arm's `self.enter_scope()` / `self.exit_scope()` (also undefined on
`Checker`) are taken to be the `StaticScopes` methods of those names. -/
def checkExpression : HExpr → ScopeContext → CheckSt → Res (TypeId × CheckSt)
  | .Unit, _, st => .ok (st.insertType .Unit)
  | .IntH _, _, st => .ok (st.insertType .Integer)
  | .BooleanH _, _, st => .ok (st.insertType .Boolean)
  | .StringH _, _, st => .ok (st.insertType .String)
  | .IdH _, _, _ => .panic
  | .FunctionH _ _ _, _, _ => .panic
  | .InstanceH _ _, _, _ => .panic
  | .CallH function parameters, context, st =>
    match checkExprList parameters context st with
    | .ok (parameter_types, st1) =>
      let (return_type, st2) := st1.insertType (.Unknown false)
      let (expected_type, st3) :=
        st2.insertType (.Function parameter_types return_type)
      match checkExpression function context st3 with
      | .ok (found_type, st4) =>
        match st4.unify found_type expected_type .Call with
        | .ok st5 => .ok (return_type, st5)
        | .fail => .fail
        | .panic => .panic
      | .fail => .fail
      | .panic => .panic
    | .fail => .fail
    | .panic => .panic
  | .DeclarationH _ _, _, _ => .panic
  | .AssignVariable _ _, _, _ => .panic
  | .AssignField _ _ _, _, _ => .panic
  | .AccessH from_ id, context, st =>
    match checkExpression from_ context st with
    | .ok (object_id, st1) =>
      let (field_id, st2) := st1.insertType (.Unknown false)
      .ok (field_id,
        { st2 with constraints := st2.constraints ++ [⟨object_id, field_id, id⟩] })
    | .fail => .fail
    | .panic => .panic
  | .BlockH expressions tail, context, st =>
    let st := { st with scopes := st.scopes.enterScope }
    match checkExprList expressions context st with
    | .ok (_, st1) =>
      match checkExpression tail context st1 with
      | .ok (result, st2) =>
        match st2.scopes.exitScope with
        | .ok scopes => .ok (result, { st2 with scopes := scopes })
        | .fail => .fail
        | .panic => .panic
      | .fail => .fail
      | .panic => .panic
    | .fail => .fail
    | .panic => .panic
  | .StructureH _ _, _, _ => .panic
  | .ConditionalH condition success failure, context, st =>
    let (boolean, st1) := st.insertType .Boolean
    match checkExpression condition context st1 with
    | .ok (conditionTy, st2) =>
      match st2.unify conditionTy boolean .Condition with
      | .ok st3 =>
        match checkExpression success context st3 with
        | .ok (successTy, st4) =>
          match checkExpression failure context st4 with
          | .ok (failureTy, st5) =>
            match st5.unify successTy failureTy .Conditional with
            | .ok st6 => .ok (successTy, st6)
            | .fail => .fail
            | .panic => .panic
          | .fail => .fail
          | .panic => .panic
        | .fail => .fail
        | .panic => .panic
      | .fail => .fail
      | .panic => .panic
    | .fail => .fail
    | .panic => .panic
  | .BreakH e, context, st =>
    let (unit, st1) := st.insertType .Unit
    match context with
    | .FunctionLoop _ loop_return =>
      match checkExpression e context st1 with
      | .ok (found_ret_ty, st2) =>
        match st2.unify loop_return found_ret_ty .Loop with
        | .ok st3 => .ok (unit, st3)
        | .fail => .fail
        | .panic => .panic
      | .fail => .fail
      | .panic => .panic
    | .Function _ =>
      .ok (unit, { st1 with errors := st1.errors ++ [.InvalidFlow] })
  | .ReturnH e, context, st =>
    let (unit, st1) := st.insertType .Unit
    let function_ret_ty := context.getFunctionRetTy
    match checkExpression e context st1 with
    | .ok (found_return_ty, st2) =>
      match st2.unify function_ret_ty found_return_ty .Return with
      | .ok st3 => .ok (unit, st3)
      | .fail => .fail
      | .panic => .panic
    | .fail => .fail
    | .panic => .panic
  | .ContinueH, context, st =>
    let st : CheckSt :=
      match context with
      | .Function _ => { st with errors := st.errors ++ [.InvalidFlow] }
      | .FunctionLoop _ _ => st
    .ok (st.insertType .Unit)
  | .LoopH body, context, st =>
    let (loop_return, st1) := st.insertType (.Unknown false)
    checkExpression body
      (.FunctionLoop context.getFunctionRetTy loop_return) st1
  | .ErrorH, _, st => .ok (st.insertType (.Unknown true))
  | .UseH _, _, st => .ok (st.insertType .Unit)

def checkExprList : List HExpr → ScopeContext → CheckSt →
    Res (List TypeId × CheckSt)
  | [], _, st => .ok ([], st)
  | e :: es, context, st =>
    match checkExpression e context st with
    | .ok (t, st1) =>
      match checkExprList es context st1 with
      | .ok (ts, st2) => .ok (t :: ts, st2)
      | .fail => .fail
      | .panic => .panic
    | .fail => .fail
    | .panic => .panic

end

/-! The module builder, from src/lang/src/front_end/module.rs. -/

/-- `Entry` (file.rs), abstracted to file-name stems: `transform` decides
module names and conflicts from stems alone; the file contents feed
`generate_ast`, which contributes only lexer/parser diagnostics (never
`ConflictingModuleNames`) and is therefore omitted here. -/
inductive Entry where
  | File (stem : Name)
  | Directory (stem : Name) (entries : List Entry)
  deriving Repr

/-- `ast::Module` as produced by the module builder (ASTs omitted as
above). -/
inductive ModTree where
  | Program (name : Name)
  | Submodule (name : Name) (modules : List ModTree)
  deriving Repr

/-- The state of an `EntryTransformer` (module.rs lines 13-17).  There is
one `adjacent_names` set for the WHOLE traversal: it is a field of the
transformer, never saved or restored when descending into a subdirectory,
and cleared whenever any directory finishes its children. -/
structure TransformSt where
  adjacent_names : List Name
  current_parent_id : List Name
  errors : List ErrKind
  deriving Repr, DecidableEq

/-- `HashSet::insert` on the name set (membership is all the source
uses). -/
def insertNameSet (n : Name) (s : List Name) : List Name :=
  if s.contains n then s else s ++ [n]

mutual

/-- `EntryTransformer::transform` (module.rs lines 21-64). -/
def transformEntry : Entry → TransformSt → ModTree × TransformSt
  | .File stem, st =>
    let st :=
      if st.adjacent_names.contains stem then
        { st with errors := st.errors ++
            [.ConflictingModuleNames st.current_parent_id stem] }
      else st
    (.Program stem,
     { st with adjacent_names := insertNameSet stem st.adjacent_names })
  | .Directory stem entries, st =>
    let st :=
      if st.adjacent_names.contains stem then
        { st with errors := st.errors ++
            [.ConflictingModuleNames st.current_parent_id stem] }
      else st
    let st := { st with current_parent_id := st.current_parent_id ++ [stem] }
    let (modules, st) := transformEntries entries st
    let st := { st with current_parent_id := st.current_parent_id.dropLast }
    let st := { st with adjacent_names := [] }
    (.Submodule stem modules, st)

def transformEntries : List Entry → TransformSt → List ModTree × TransformSt
  | [], st => ([], st)
  | e :: es, st =>
    let (m, st1) := transformEntry e st
    let (ms, st2) := transformEntries es st1
    (m :: ms, st2)

end

/-- `from` (module.rs lines 67-75). -/
def moduleFrom (entry : Entry) : ModTree × TransformSt :=
  transformEntry entry ⟨[], [], []⟩

/-- The `ConflictingModuleNames` diagnostics among an error list. -/
def conflictingModuleNames (errors : List ErrKind) : List ErrKind :=
  errors.filter (fun e =>
    match e with
    | .ConflictingModuleNames _ _ => true
    | _ => false)

/-- The diagnostics a gather run produces (panic and failure pass
through). -/
def gatherErrorsOf (m : HModule) : Res (List ErrKind) :=
  match gather m with
  | .ok st => .ok st.errors
  | .fail => .fail
  | .panic => .panic

/-- The type infos among which `unify_with_context` neither recurses nor
touches a field map: `Unknown` and the niladic shapes. -/
def isPrimOrUnknown : TypeInfo → Bool
  | .Unknown _ => true
  | .Integer => true
  | .Boolean => true
  | .String => true
  | .Unit => true
  | _ => false

/-- A mismatch with its two sides exchanged. -/
def Mismatch.swap (m : Mismatch) : Mismatch := ⟨m.b, m.a, m.reason⟩

/-- Two mismatch lists are equivalent when they agree pointwise up to
exchanging the two sides of a mismatch. -/
def MismatchEquiv (m₁ m₂ : List Mismatch) : Prop :=
  List.Forall₂ (fun x y => x = y ∨ x = Mismatch.swap y) m₁ m₂

/-! Helper lemmas (shared). -/

theorem mismatchEquiv_refl (l : List Mismatch) : MismatchEquiv l l := by
  induction l with
  | nil => exact List.Forall₂.nil
  | cons x xs ih => exact List.Forall₂.cons (Or.inl rfl) ih

theorem mismatchEquiv_push (l : List Mismatch) (x y : Mismatch)
    (h : x = y ∨ x = Mismatch.swap y) :
    MismatchEquiv (l ++ [x]) (l ++ [y]) := by
  induction l with
  | nil => exact List.Forall₂.cons h List.Forall₂.nil
  | cons z zs ih => exact List.Forall₂.cons (Or.inl rfl) ih

/-- chumsky's greedy `any().repeated()` consumes the whole input. -/
theorem crepeatedF_canyChar_all (fuel : Nat) :
    ∀ s : List Char, s.length < fuel →
      crepeatedF canyChar fuel s = .ok (s, []) := by
  induction fuel with
  | zero => intro s h; omega
  | succ n ih =>
    intro s h
    cases s with
    | nil => simp [crepeatedF, canyChar]
    | cons c rest =>
      simp only [crepeatedF, canyChar]
      rw [ih rest (by simpa using Nat.lt_of_succ_lt_succ h)]

/-- `remove_ref` diverges on the self-link written by `unify(a, a, r)` on
an `Unknown` slot, whatever the fuel. -/
theorem remove_ref_self_link_diverges (fuel : Nat) :
    Engine.remove_ref ⟨[.Link 0 .Other], []⟩ fuel (.Link 0 .Other) =
      .panic := by
  induction fuel with
  | zero => rfl
  | succ n ih => exact ih

/-! Claim theorems. -/

/-- C1: the spec claims every two-character operator is lexed by longest
match, never as its one-character prefixes.  The lexer's `choice` tries the
operator table in source order, which lists `&` before `&&` and `-` before
`->` (lex.rs lines 48, 50, 40, 55), so `&&` lexes as two `Reference`
tokens and `->` as `Minus` followed by `Greater` — the tokens `And` and
`Arrow`, which the parser requires for `&&` and return-type arrows, are
unreachable.  The third conjunct shows longest match does hold for `<=`,
locating the defect precisely in the table order. -/
theorem lexer_splits_double_char_operators :
    lex "&&" = .ok ⟨[.token .Reference, .token .Reference,
      .token .EndOfFile], []⟩ ∧
    lex "->" = .ok ⟨[.token .Minus, .token .Greater,
      .token .EndOfFile], []⟩ ∧
    lex "<=" = .ok ⟨[.token .LesserOrEqual, .token .EndOfFile], []⟩ :=
  ⟨rfl, rfl, rfl⟩

/-- C2: the spec claims `lex` never raises and turns an out-of-range
integer literal into a diagnostic.  The integer rule (lex.rs line 35) is
`characters.parse::<i32>().unwrap()`, which panics for any literal above
`i32::MAX = 2147483647`; the boundary value still lexes. -/
theorem lex_panics_on_i32_overflow :
    lex "2147483648" = .panic ∧
    lex "2147483647" = .ok ⟨[.token (.Int 2147483647),
      .token .EndOfFile], []⟩ :=
  ⟨rfl, rfl⟩

/-- C3: the spec claims a second `func f(){}` in one file emits
`ConflictingIds`.  `gather_function` (gather.rs lines 167-181) performs no
conflict check at all, so the double declaration gathers with no
diagnostics (first conjunct); a redeclared `var` also produces none (second
conjunct, as claimed); and the one place that does check —
`gather_structure`, gather.rs lines 151-157 — builds the error with
`second: todo!()`, so a conflicting structure name panics instead of
emitting the diagnostic (third conjunct). -/
theorem gather_reports_no_conflicting_ids :
    gatherErrorsOf (.Program "m" [.Function "f" [] .Unit,
      .Function "f" [] .Unit]) = .ok [] ∧
    gatherErrorsOf (.Program "m" [.Function "g" []
      (.BlockH [.DeclarationH "x" (.IntH 1),
        .DeclarationH "x" (.BooleanH true)] .Unit)]) = .ok [] ∧
    gather (.Program "m" [.Structure "s" [], .Structure "s" []]) =
      .panic :=
  ⟨rfl, rfl, rfl⟩

/-- C4: the spec claims depth-N nested block comments lex successfully and
an unterminated one emits exactly one `UnterminatedBlockComment`.  The
comment rule (lex.rs line 102) is
`just("/*").then(any().repeated()).then(just("*/"))`: the greedy
`any().repeated()` consumes to the end of input and is never backtracked
into, so the trailing `just("*/")` always fails — the block-comment parser
succeeds on NO input (first conjunct).  Consequently `/*` lexes as the
tokens `/` `*` with no diagnostic at all (second conjunct), the spec's own
nested-comment scenario lexes as fifteen ordinary tokens (third conjunct),
and every diagnostic `lex` can emit is an `Unexpected` (fourth conjunct),
so an `UnterminatedBlockComment` is never produced. -/
theorem block_comments_cannot_lex :
    (∀ (fuel : Nat) (s : List Char), s.length < fuel →
      blockCommentLex fuel s = .fail) ∧
    lex "/*" = .ok ⟨[.token .Divide, .token .Multiply,
      .token .EndOfFile], []⟩ ∧
    lex "/* a /* b */ c */" = .ok ⟨[.token .Divide, .token .Multiply,
      .token (.NameTok "a"), .token .Divide, .token .Multiply,
      .token (.NameTok "b"), .token .Multiply, .token .Divide,
      .token (.NameTok "c"), .token .Multiply, .token .Divide,
      .token .EndOfFile], []⟩ ∧
    (∀ u : Unit, lexErrorToDiagnostic u = .Unexpected) := by
  refine ⟨?_, rfl, rfl, fun _ => rfl⟩
  intro fuel s h
  unfold blockCommentLex cseq cjust
  by_cases hp : ['/', '*'].isPrefixOf s
  · have hlen : (s.drop (['/', '*'] : List Char).length).length < fuel := by
      simp only [List.length_drop]
      omega
    simp only [hp, if_pos]
    rw [crepeatedF_canyChar_all fuel _ hlen]
    simp [List.isPrefixOf]
  · simp [hp]

theorem block_comments_cannot_lex_witness :
    blockCommentLex 3 ['/', '*'] = .fail :=
  block_comments_cannot_lex.1 3 ['/', '*'] (by decide)

/-- C5 (counterexample): checking `Loop(5)` from an empty engine allocates
the fresh `Unknown` break slot at id 0, but the checker returns id 1 — the
`Integer` slot of the body — so the value returned for a `Loop` expression
is NOT the fresh `Unknown` slot the claim describes. -/
theorem loop_result_not_fresh_unknown :
    checkExpression (.LoopH (.IntH 5)) (.Function 0)
        ⟨[], ⟨[], 0, 0⟩, ⟨[], []⟩, []⟩ =
      .ok (1, ⟨[], ⟨[], 0, 0⟩, ⟨[.Unknown false, .Integer], []⟩, []⟩) ∧
    (1 : TypeId) ≠ 0 :=
  ⟨rfl, by decide⟩

/-- C5 (amended): the checker's `Loop` arm (check.rs lines 316-328) does
allocate a fresh `Unknown` slot `r` and does check the body in a
`FunctionLoop` context with `loop_return = r` — but its result is whatever
the body check returns, not `r` (first conjunct, an exact equation).  A
`break e` under an enclosing loop unifies `r` with the type of `e` under
reason `Loop` (check.rs lines 279-283): in the concrete run the break slot
0 ends as `Link 2 Loop`, pointing at the `Integer` of the broken value
(second conjunct). -/
theorem loop_type_is_body_type_with_fresh_loop_slot :
    (∀ (body : HExpr) (ctx : ScopeContext) (st : CheckSt),
      checkExpression (.LoopH body) ctx st =
        checkExpression body
          (.FunctionLoop ctx.getFunctionRetTy st.engine.types.length)
          { st with engine :=
              { st.engine with
                  types := st.engine.types ++ [.Unknown false] } }) ∧
    checkExpression (.LoopH (.BreakH (.IntH 5))) (.Function 0)
        ⟨[], ⟨[], 0, 0⟩, ⟨[], []⟩, []⟩ =
      .ok (1, ⟨[], ⟨[], 0, 0⟩, ⟨[.Link 2 .Loop, .Unit, .Integer], []⟩, []⟩) :=
  ⟨fun _ _ _ => rfl, rfl⟩

/-- C6 (counterexample): a directory whose children are the submodule
`foo/` followed by the file `foo.bell` — same-stem siblings, for which the
claim demands a `ConflictingModuleNames` — produces NO diagnostic, because
`transform` only ever inserts FILE stems into `adjacent_names` and clears
the set whenever a directory finishes. -/
theorem sibling_conflict_missed_after_directory :
    (moduleFrom (.Directory "root"
      [.Directory "foo" [], .File "foo"])).2.errors = [] :=
  rfl

/-- C6 (amended): the `adjacent_names` set is a single field of the
transformer, shared by the whole traversal (module.rs lines 13-17): a
conflict is reported when a FILE stem was inserted earlier and no directory
has been finished in between.  So the file-then-directory sibling pair is
caught (first conjunct), the directory-then-file pair is missed (second
conjunct), a file inside a subdirectory spuriously conflicts with its
uncle's stem from the parent directory (third conjunct), and a genuine
same-stem sibling pair separated by an intervening subdirectory — whose
completion cleared the set — is missed (fourth conjunct). -/
theorem module_name_conflicts_leak_across_directories :
    (moduleFrom (.Directory "root"
      [.File "foo", .Directory "foo" []])).2.errors =
        [.ConflictingModuleNames ["root"] "foo"] ∧
    (moduleFrom (.Directory "root"
      [.Directory "foo" [], .File "foo"])).2.errors = [] ∧
    (moduleFrom (.Directory "root"
      [.File "a", .Directory "sub" [.File "a"]])).2.errors =
        [.ConflictingModuleNames ["root", "sub"] "a"] ∧
    (moduleFrom (.Directory "root"
      [.File "x", .Directory "d" [], .Directory "x" []])).2.errors = [] :=
  ⟨rfl, rfl, rfl, rfl⟩

/-- C7 (counterexample): `unify` on two `Structure` slots is asymmetric
(types.rs lines 146-160: only the LEFT side's fields must occur on the
right).  With slot 0 an empty structure and slot 1 a structure with one
field, `unify(0, 1, r)` records no mismatch while `unify(1, 0, r)` records
one — the two runs do not produce equivalent mismatches, refuting
commutativity as claimed. -/
theorem unify_structure_asymmetric_counterexample :
    Engine.unify ⟨[.Structure [], .Structure [("x", 2)], .Integer], []⟩
        5 0 1 .Other =
      .ok ⟨[.Structure [], .Structure [("x", 2)], .Integer], []⟩ ∧
    Engine.unify ⟨[.Structure [], .Structure [("x", 2)], .Integer], []⟩
        5 1 0 .Other =
      .ok ⟨[.Structure [], .Structure [("x", 2)], .Integer],
        [⟨1, 0, .Other⟩]⟩ :=
  ⟨rfl, rfl⟩

/-- C7 (amended): commutativity up to representative and mismatch
orientation does hold whenever neither side's slot is structural: for slots
holding `Unknown`, `Integer`, `Boolean`, `String` or `Unit`, the two call
orders succeed, their mismatch lists agree pointwise up to swapping sides,
and the final type vectors are identical except when both sides are
`Unknown`, where the single written link's direction is the choice of
representative. -/
theorem unify_comm_up_to_swap_on_nonstructural (e : Engine) (a b : TypeId)
    (r : LinkReason) (fuel : Nat) (ia ib : TypeInfo)
    (ha : e.types.get? a = some ia) (hb : e.types.get? b = some ib)
    (hpa : isPrimOrUnknown ia = true) (hpb : isPrimOrUnknown ib = true) :
    ∃ e₁ e₂, e.unify (fuel + 1) a b r = .ok e₁ ∧
      e.unify (fuel + 1) b a r = .ok e₂ ∧
      MismatchEquiv e₁.mismatches e₂.mismatches ∧
      (e₁.types = e₂.types ∨
        (∃ ra rb, ia = .Unknown ra ∧ ib = .Unknown rb ∧
          e₁.types = e.types.set a (.Link b r) ∧
          e₂.types = e.types.set b (.Link a r))) := by
  cases ia <;> cases ib <;> simp only [isPrimOrUnknown] at hpa hpb <;>
    first
    | exact absurd hpa (by decide)
    | exact absurd hpb (by decide)
    | (simp only [Engine.unify, unifyWithContext, ha, hb, Engine.pushMismatch]
       refine ⟨_, _, rfl, rfl, ?_, ?_⟩ <;>
        first
        | exact mismatchEquiv_refl _
        | exact mismatchEquiv_push _ _ _ (Or.inr rfl)
        | exact Or.inl rfl
        | exact Or.inr ⟨_, _, rfl, rfl, rfl, rfl⟩)

theorem unify_comm_up_to_swap_on_nonstructural_witness :
    ∃ e₁ e₂,
      Engine.unify ⟨[.Integer, .Boolean], []⟩ 1 0 1 .Other = .ok e₁ ∧
      Engine.unify ⟨[.Integer, .Boolean], []⟩ 1 1 0 .Other = .ok e₂ ∧
      MismatchEquiv e₁.mismatches e₂.mismatches ∧
      (e₁.types = e₂.types ∨
        (∃ ra rb, TypeInfo.Integer = .Unknown ra ∧
          TypeInfo.Boolean = .Unknown rb ∧
          e₁.types = [TypeInfo.Integer, .Boolean].set 0 (.Link 1 .Other) ∧
          e₂.types = [TypeInfo.Integer, .Boolean].set 1 (.Link 0 .Other))) :=
  unify_comm_up_to_swap_on_nonstructural ⟨[.Integer, .Boolean], []⟩ 0 1
    .Other 0 .Integer .Boolean rfl rfl rfl rfl

/-- C8: the spec claims `unify(a, a, r)` returns with the engine unchanged
— no self-link, no mismatch.  `unify_with_context` (types.rs lines 118-136)
has no `a == b` check: on an `Unknown` slot it writes the self-link
`Link { linked_to: 0 }` (first conjunct), creating a link cycle on which
`remove_ref` never terminates (third conjunct, for every recursion bound);
and `(Unit, Unit)` has no success arm, so `unify(a, a, r)` on a `Unit`
slot records a spurious self-mismatch (second conjunct). -/
theorem unify_self_modifies_engine :
    Engine.unify ⟨[.Unknown false], []⟩ 1 0 0 .Other =
      .ok ⟨[.Link 0 .Other], []⟩ ∧
    Engine.unify ⟨[.Unit], []⟩ 1 0 0 .Other =
      .ok ⟨[.Unit], [⟨0, 0, .Other⟩]⟩ ∧
    (∀ fuel : Nat,
      Engine.remove_ref ⟨[.Link 0 .Other], []⟩ fuel (.Link 0 .Other) =
        .panic) :=
  ⟨rfl, rfl, remove_ref_self_link_diverges⟩

/-- C9 (counterexample): for a program whose only top-level item is a
structure, `gather` PANICS instead of producing a scope graph — the second
pass's `gather_structure` finds the binding inserted by the first pass and
evaluates `todo!()` — so the structure's name does not "occur twice in its
module scope's variable list" as claimed: gather never returns. -/
theorem gather_structure_program_panics :
    gather (.Program "m" [.Structure "s" []]) = .panic :=
  rfl

/-- C9 (amended): `gather` runs `gather_program` on every program twice —
once inside `insert_hir_module` and once inside `gather_module`.  For a
top-level function the name is inserted twice into the module scope (scope
1) with two distinct fresh type slots, 0 and 1 (first conjunct, with two
body scopes 2 and 3 created by the two passes); an unresolvable top-level
use item is resolved twice and yields two `MissingId` diagnostics (second
conjunct).  A top-level structure instead panics in the second pass (see
the counterexample). -/
theorem gather_double_processes_programs :
    gather (.Program "m" [.Function "f" [] .Unit]) =
      .ok ⟨⟨[⟨[("m", 1)], [], .None⟩,
        ⟨[], [("f", ⟨0, false⟩), ("f", ⟨1, false⟩)], .Exclusive 0⟩,
        ⟨[], [], .Exclusive 1⟩,
        ⟨[], [], .Exclusive 1⟩], 0⟩,
        ⟨[.Unknown true, .Unknown true], []⟩, []⟩ ∧
    gather (.Program "m" [.Import ["nope"]]) =
      .ok ⟨⟨[⟨[("m", 1)], [], .None⟩, ⟨[], [], .Exclusive 0⟩], 0⟩,
        ⟨[], []⟩, [.MissingId ["nope"], .MissingId ["nope"]]⟩ :=
  ⟨rfl, rfl⟩

/-- C10 (counterexample): the claim's example says a whitespace-only file
lexes to just `EndOfFile`.  It does not: with zero meta-tokens parsed, the
pending whitespace is rewound, `end()` fails, and `lex` returns the EMPTY
token vector plus an `Unexpected` diagnostic (first conjunct); `parse` on
that empty vector then panics in `TokenIterator::get_end_span`'s `unwrap`
(second conjunct) instead of returning the claimed single-`Error` AST. -/
theorem whitespace_file_lex_not_eof :
    lex "   " = .ok ⟨[], [.Unexpected]⟩ ∧
    parse ([] : List MetaToken) = .panic :=
  ⟨rfl, rfl⟩

/-- C10 (amended): an EMPTY source file lexes to exactly `EndOfFile`
(first conjunct); the expression grammar fails on the empty token stream at
every recursion depth, since each alternative demands a first token (second
conjunct); and parsing the `EndOfFile`-only token vector emits an
`Unexpected` diagnostic and yields the single `Error` AST (third conjunct)
— an empty source file is never diagnostic-free.  A whitespace-only file,
however, fails in the lexer and panics in the parser (see the
counterexample). -/
theorem empty_file_parse_error :
    lex "" = .ok ⟨[.token .EndOfFile], []⟩ ∧
    (∀ fuel : Nat, expressionT (fuel + 1) [] = .fail) ∧
    parse [.token .EndOfFile] = .ok ([.ErrorE], [.Unexpected]) :=
  ⟨rfl, fun _ => rfl, rfl⟩

end Bell
